import Mathlib

/-!
Verification of the recency-weighted feature pipeline of MarchMadnessV2.

The development shallowly embeds the Python modules
`src/data/feature_engineering.py`, `src/data/data_loader.py` and
`src/models/model_factory.py`.  A pandas `DataFrame` is modelled as a
header (list of column names) together with a list of rows; a Python
`dict[int, DataFrame]` is modelled as an association list in insertion
order; Python exceptions are modelled by an error type carrying the
exception class and message, and fallible functions return `Except`.
Float weights are modelled as rationals (the code only stores and
compares them, it never does float arithmetic on them).
-/

namespace MarchMadness

/-- A cell of a table: integers, numbers (weights), strings, or the
missing-value marker used by pandas when concatenation aligns columns. -/
inductive Cell where
  | int : Int → Cell
  | num : Rat → Cell
  | str : String → Cell
  | nan : Cell
deriving DecidableEq

/-- A pandas DataFrame: column names plus rows of cells (one cell per
column). -/
structure Table where
  header : List String
  rows : List (List Cell)
deriving DecidableEq

/-- Well-formedness of a table: each row has one cell per column. -/
def Table.WF (t : Table) : Prop :=
  ∀ r ∈ t.rows, r.length = t.header.length

instance (t : Table) : Decidable t.WF := by
  unfold Table.WF; infer_instance

/-- Python exceptions raised by the embedded code, by class and message. -/
inductive PyError where
  | valueError : String → PyError
  | runtimeError : String → PyError
  | typeError : String → PyError
  | keyError : String → PyError
deriving DecidableEq

/-- Value of the first column called `name` in a row (pandas column
lookup); `nan` when the column is absent or the row is too short. -/
def rowVal : List String → List Cell → String → Cell
  | [], _, _ => Cell.nan
  | _ :: _, [], _ => Cell.nan
  | c :: h, v :: r, name => if c = name then v else rowVal h r name

/-- Header after the column assignment `df[name] = value`: an existing
column keeps its place, a new one is appended at the end. -/
def setColHeader (h : List String) (name : String) : List String :=
  if name ∈ h then h else h ++ [name]

/-- Replace, in a row, the cell of the first column called `name`. -/
def setColRow : List String → List Cell → String → Cell → List Cell
  | _, [], _, _ => []
  | [], r, _, _ => r
  | c0 :: h, v :: r, name, c =>
      if c0 = name then c :: r else v :: setColRow h r name c

/-- Row transformation of the column assignment `df[name] = value`:
replace in place when the column exists, else append. -/
def setColFun (h : List String) (name : String) (c : Cell) (r : List Cell) :
    List Cell :=
  if name ∈ h then setColRow h r name c else r ++ [c]

/-- The pandas column assignment `df[name] = value` (a scalar broadcast
to every row). -/
def Table.setCol (t : Table) (name : String) (c : Cell) : Table :=
  ⟨setColHeader t.header name, t.rows.map (setColFun t.header name c)⟩

/-- `feature_engineering.weight_by_recency`, lines 41-46: stamp a copy of
one year's table with its `year` and its `weight`. -/
def stampTable (year : Int) (w : Rat) (t : Table) : Table :=
  (t.setCol "year" (Cell.int year)).setCol "weight" (Cell.num w)

/-- Reindex a row from its own header to the combined header of a
`pd.concat`, filling columns it lacks with `nan`. -/
def reindexRow (oldH fullH : List String) (r : List Cell) : List Cell :=
  fullH.map (fun c => rowVal oldH r c)

/-- Combined column list of `pd.concat`: columns in order of first
appearance across the frames. -/
def headerUnion (hs : List (List String)) : List String :=
  hs.foldl (fun acc h => acc ++ h.filter (fun c => ¬ c ∈ acc)) []

/-- `pd.concat(dfs, ignore_index=True)`: align every frame to the
combined column list and append the rows in order. -/
def concatTables (ts : List Table) : Table :=
  let fullH := headerUnion (ts.map Table.header)
  ⟨fullH, (ts.map (fun t => t.rows.map (reindexRow t.header fullH))).flatten⟩

/-- Python `sorted` on the year list (ascending). -/
def sortYears (l : List Int) : List Int :=
  l.insertionSort (· ≤ ·)

/-- The Python slice `l[k:]`, including its negative-index semantics. -/
def pySliceFrom (k : Int) (l : List α) : List α :=
  if k < 0 then l.drop (Int.toNat ((l.length : Int) + k))
  else l.drop (Int.toNat (min k (l.length : Int)))

/-- `feature_engineering.weight_by_recency`, line 35: the years to
emphasize, `years[-emphasis_years:] if len(years) >= emphasis_years
else years`. -/
def recentYears (emphasis_years : Int) (years : List Int) : List Int :=
  if emphasis_years ≤ (years.length : Int) then pySliceFrom (-emphasis_years) years
  else years

/-- `feature_engineering.weight_by_recency`, line 45: the weight of one
year's table, `emphasis_weight if year in recent_years else
base_weight`, applied to the stamping of that table. -/
def stampOf (recent : List Int) (bw ew : Rat) (p : Int × Table) : Table :=
  stampTable p.1 (if p.1 ∈ recent then ew else bw) p.2

/-- `feature_engineering.weight_by_recency`, lines 37-48: the
`weighted_dfs` accumulator loop, iterating the mapping in insertion
order and skipping empty tables. -/
def weightedList (recent : List Int) (bw ew : Rat)
    (m : List (Int × Table)) : List Table :=
  m.foldl
    (fun acc p =>
      if p.2.rows.isEmpty then acc else acc ++ [stampOf recent bw ew p])
    []

/-- `feature_engineering.weight_by_recency`: combine a year-keyed mapping
of tables into one table, stamping each row with its year and a weight
that is `emphasis_weight` for the emphasized years and `base_weight`
otherwise.  The mapping is an association list in insertion order, as a
Python dict iterates. -/
def weight_by_recency (data_by_year : List (Int × Table))
    (emphasis_years : Int) (base_weight emphasis_weight : Rat) :
    Except PyError Table :=
  if data_by_year.isEmpty then
    Except.error (PyError.valueError "No data provided")
  else
    let years := sortYears (data_by_year.map Prod.fst)
    let recent_years := recentYears emphasis_years years
    let weighted_dfs := weightedList recent_years base_weight emphasis_weight data_by_year
    if weighted_dfs.isEmpty then
      Except.error (PyError.valueError "No valid data frames to combine")
    else
      Except.ok (concatTables weighted_dfs)

/-- `feature_engineering.create_team_features`: weight the team stats by
recency; when a rankings mapping is supplied and truthy, also weight it
(the merge is an unimplemented placeholder, so the result is discarded);
return the weighted team stats. -/
def create_team_features (team_stats_by_year : List (Int × Table))
    (rankings_by_year : Option (List (Int × Table)))
    (emphasis_years : Int) : Except PyError Table := do
  let weighted_stats ← weight_by_recency team_stats_by_year emphasis_years 1 2
  match rankings_by_year with
  | some r =>
      if r.isEmpty then
        pure weighted_stats
      else do
        let _ ← weight_by_recency r emphasis_years 1 2
        pure weighted_stats
  | none => pure weighted_stats

/-- `feature_engineering.create_matchup_features`: weight the game
results by recency; the join against team features is an unimplemented
placeholder, so the weighted games are returned unchanged. -/
def create_matchup_features (team_features : Table)
    (games_by_year : List (Int × Table)) (emphasis_years : Int) :
    Except PyError Table :=
  weight_by_recency games_by_year emphasis_years 1 2

/-- Header after `df.drop(name, axis=1)`: the first column called `name`
is removed (with the unique column names of a well-formed frame, the
only one). -/
def dropColHeader : List String → String → List String
  | [], _ => []
  | c :: h, name => if c = name then h else c :: dropColHeader h name

/-- Row after `df.drop(name, axis=1)`: the cell of the first column
called `name` is removed. -/
def dropColRow : List String → List Cell → String → List Cell
  | [], r, _ => r
  | _, [], _ => []
  | c :: h, v :: r, name => if c = name then r else v :: dropColRow h r name

/-- `df.drop(name, axis=1)`: remove the column, or raise the pandas
`KeyError` when it is absent. -/
def Table.drop (t : Table) (name : String) : Except PyError Table :=
  if name ∈ t.header then
    Except.ok ⟨dropColHeader t.header name,
               t.rows.map (fun r => dropColRow t.header r name)⟩
  else
    Except.error (PyError.keyError ("['" ++ name ++ "'] not found in axis"))

/-- `df[name]`: the column as a list of cells, or the `KeyError` the
lookup raises when the column is absent. -/
def Table.getCol (t : Table) (name : String) : Except PyError (List Cell) :=
  if name ∈ t.header then
    Except.ok (t.rows.map (fun r => rowVal t.header r name))
  else
    Except.error (PyError.keyError name)

/-- The values of one named column of a table (`nan` where absent). -/
def colValues (t : Table) (name : String) : List Cell :=
  t.rows.map (fun r => rowVal t.header r name)

/-- `feature_engineering.prepare_training_data`: filter the three
mappings to the target years, build team then matchup features, and
split off the `outcome` column as the target. -/
def prepare_training_data (team_stats_by_year rankings_by_year
    games_by_year : List (Int × Table)) (target_years : List Int) :
    Except PyError (Table × List Cell) := do
  let filtered_stats := team_stats_by_year.filter (fun p => p.1 ∈ target_years)
  let filtered_rankings := rankings_by_year.filter (fun p => p.1 ∈ target_years)
  let filtered_games := games_by_year.filter (fun p => p.1 ∈ target_years)
  let team_features ← create_team_features filtered_stats (some filtered_rankings) 2
  let matchup_features ← create_matchup_features team_features filtered_games 2
  let X ← matchup_features.drop "outcome"
  let y ← matchup_features.getCol "outcome"
  pure (X, y)

/-- The four data-type tags `data_loader.load_multi_year_data` accepts
(the keys of its `loaders` dict, in order). -/
def dataTypes : List String := ["team_stats", "rankings", "games", "tournament"]

/-- The `FileNotFoundError` message of the per-year loader for each tag
(`load_team_stats`, `load_rankings`, `load_game_results`,
`load_tournament_data`). -/
def notFoundMsg (data_type : String) (year : Int) : String :=
  if data_type = "team_stats" then "Team stats file not found for year " ++ toString year
  else if data_type = "rankings" then "Rankings file not found for year " ++ toString year
  else if data_type = "games" then "Game results file not found for year " ++ toString year
  else "Tournament file not found for year " ++ toString year

/-- The Python dict assignment `result[year] = df`: an existing key keeps
its place and gets the new value, a new key is appended. -/
def dictInsert (m : List (Int × Table)) (k : Int) (v : Table) :
    List (Int × Table) :=
  if m.any (fun p => p.1 = k) then
    m.map (fun p => if p.1 = k then (k, v) else p)
  else m ++ [(k, v)]

/-- One iteration of the year loop of
`data_loader.load_multi_year_data`: `result[year] = loader(year)`, or
catch the `FileNotFoundError` and print the warning. -/
def loadStep (fetch : String → Int → Option Table) (data_type : String)
    (acc : List (Int × Table) × List String) (year : Int) :
    List (Int × Table) × List String :=
  match fetch data_type year with
  | some t => (dictInsert acc.1 year t, acc.2)
  | none => (acc.1, acc.2 ++ ["Warning: " ++ notFoundMsg data_type year])

/-- `data_loader.load_multi_year_data`: validate the data-type tag, then
resolve each requested year through the tag's loader, skipping a year
whose resource is absent with a warning.  The filesystem behind the
per-year loaders is the external collaborator, modelled by the oracle
`fetch` (`none` is the loader's `FileNotFoundError`).  Returns the
year-keyed mapping together with the warnings printed. -/
def load_multi_year_data (fetch : String → Int → Option Table)
    (years : List Int) (data_type : String) :
    Except PyError (List (Int × Table) × List String) :=
  if ¬ data_type ∈ dataTypes then
    Except.error (PyError.valueError
      ("Unknown data type: " ++ data_type ++
       ". Must be one of ['team_stats', 'rankings', 'games', 'tournament']"))
  else
    Except.ok (years.foldl (loadStep fetch data_type) ([], []))

/-- The four model variants of `model_factory.create_model`. -/
inductive ModelType where
  | baseline
  | random_forest
  | gradient_boosting
  | svm
deriving DecidableEq

/-- The Python class name of each variant, as `cls.__name__` prints it. -/
def className : ModelType → String
  | ModelType.baseline => "BaselineModel"
  | ModelType.random_forest => "RandomForestModel"
  | ModelType.gradient_boosting => "GradientBoostingModel"
  | ModelType.svm => "SVMModel"

/-- A `model_factory.BaseModel` instance: its variant class, its
parameters, the `is_trained` flag and the wrapped library model.  The
external classifier is modelled by its fitted state, the `(X, y)` the
`fit` call received (`none` is Python's `self.model = None`). -/
structure MLModel where
  modelType : ModelType
  model_params : List (String × Cell)
  is_trained : Bool
  fitted : Option (Table × List Cell)
deriving DecidableEq

/-- `model_factory.create_model`: build a fresh, untrained model of the
requested variant, or raise the factory's `ValueError` on an
unrecognized tag.  `model_params or {}` turns an absent parameter dict
into an empty one. -/
def create_model (model_type : String)
    (model_params : Option (List (String × Cell))) : Except PyError MLModel :=
  let params := model_params.getD []
  if model_type = "baseline" then
    Except.ok ⟨ModelType.baseline, params, false, none⟩
  else if model_type = "random_forest" then
    Except.ok ⟨ModelType.random_forest, params, false, none⟩
  else if model_type = "gradient_boosting" then
    Except.ok ⟨ModelType.gradient_boosting, params, false, none⟩
  else if model_type = "svm" then
    Except.ok ⟨ModelType.svm, params, false, none⟩
  else
    Except.error (PyError.valueError
      ("Unknown model type: " ++ model_type ++
       ". Must be one of ['baseline', 'random_forest', 'gradient_boosting', 'svm']"))

/-- Every variant's `train`: fit the wrapped classifier on `(X, y)` and
set `is_trained`.  The external `fit` is modelled as storing the data it
was fitted on. -/
def MLModel.train (m : MLModel) (X : Table) (y : List Cell) : MLModel :=
  { m with fitted := some (X, y), is_trained := true }

/-- `BaseModel.predict`: refuse when untrained, else delegate to the
wrapped classifier, modelled by the oracle `impl`. -/
def MLModel.predict (m : MLModel)
    (impl : Option (Table × List Cell) → Table → List Cell) (X : Table) :
    Except PyError (List Cell) :=
  if m.is_trained = false then
    Except.error (PyError.runtimeError "Model must be trained before making predictions")
  else
    Except.ok (impl m.fitted X)

/-- `BaseModel.evaluate`: refuse when untrained, else predict and score
the predictions; the sklearn metric functions are the external oracle
`metrics`. -/
def MLModel.evaluate (m : MLModel)
    (impl : Option (Table × List Cell) → Table → List Cell)
    (metrics : List Cell → List Cell → List (String × Rat))
    (X : Table) (y : List Cell) : Except PyError (List (String × Rat)) :=
  if m.is_trained = false then
    Except.error (PyError.runtimeError "Model must be trained before evaluation")
  else
    (m.predict impl X).map (fun y_pred => metrics y y_pred)

/-- `BaseModel.save`: refuse when untrained, else pickle the whole model
object (the serialized stream is the object itself). -/
def MLModel.save (m : MLModel) : Except PyError MLModel :=
  if m.is_trained = false then
    Except.error (PyError.runtimeError "Cannot save untrained model")
  else
    Except.ok m

/-- A variant class's `load` (`cls.load(filepath)`): unpickle the stored
model — the argument `stored` — and refuse with the `TypeError` when it
is not an instance of the requesting variant class. -/
def MLModel.load (cls : ModelType) (stored : MLModel) : Except PyError MLModel :=
  if stored.modelType = cls then Except.ok stored
  else
    Except.error (PyError.typeError
      ("Loaded model is not an instance of " ++ className cls))

instance {ε α : Type} [DecidableEq ε] [DecidableEq α] :
    DecidableEq (Except ε α) := fun x y =>
  match x, y with
  | Except.ok a, Except.ok b =>
      if h : a = b then isTrue (by rw [h]) else isFalse (by simp [h])
  | Except.error a, Except.error b =>
      if h : a = b then isTrue (by rw [h]) else isFalse (by simp [h])
  | Except.ok _, Except.error _ => isFalse (by simp)
  | Except.error _, Except.ok _ => isFalse (by simp)

/-! ### Concrete tables and oracles used in the example theorems -/

/-- A one-row table. -/
def Ta : Table := ⟨["a"], [[Cell.int 7]]⟩

/-- A two-row table. -/
def Tb : Table := ⟨["a"], [[Cell.int 8], [Cell.int 9]]⟩

/-- A table with columns but no rows (`df.empty` is true). -/
def Tempty : Table := ⟨["a"], []⟩

/-- `weight_by_recency [(2020, Ta)] 0 1 2` evaluates to this table. -/
def Tcex : Table :=
  ⟨["a", "year", "weight"], [[Cell.int 7, Cell.int 2020, Cell.num 2]]⟩

/-- `weight_by_recency [(2021, Tb), (2020, Ta)] 1 1 2` evaluates to this
table. -/
def Tw : Table :=
  ⟨["a", "year", "weight"],
   [[Cell.int 8, Cell.int 2021, Cell.num 2],
    [Cell.int 9, Cell.int 2021, Cell.num 2],
    [Cell.int 7, Cell.int 2020, Cell.num 1]]⟩

/-- `weight_by_recency [(2020, Ta)] 2 1 2` evaluates to this table. -/
def Ts1 : Table :=
  ⟨["a", "year", "weight"], [[Cell.int 7, Cell.int 2020, Cell.num 2]]⟩

/-- `weight_by_recency [(2021, Tb)] 2 1 2` evaluates to this table. -/
def Ts2 : Table :=
  ⟨["a", "year", "weight"],
   [[Cell.int 8, Cell.int 2021, Cell.num 2],
    [Cell.int 9, Cell.int 2021, Cell.num 2]]⟩

/-- A games table carrying an `outcome` column. -/
def Tg : Table := ⟨["a", "outcome"], [[Cell.int 7, Cell.int 1]]⟩

/-- The matchup table `prepare_training_data` builds from `Tg` for year
2020. -/
def Tm : Table :=
  ⟨["a", "outcome", "year", "weight"],
   [[Cell.int 7, Cell.int 1, Cell.int 2020, Cell.num 2]]⟩

/-- A retrieval oracle whose only present resource is year 2021. -/
def fetch0 : String → Int → Option Table :=
  fun _ y => if y = 2021 then some Ta else none

/-- A trivial external classifier oracle. -/
def impl0 : Option (Table × List Cell) → Table → List Cell := fun _ _ => []

/-- A trivial external metrics oracle. -/
def metrics0 : List Cell → List Cell → List (String × Rat) := fun _ _ => []

/-! ### Lemmas about rows and column operations -/

theorem length_setColRow (h : List String) (r : List Cell) (name : String)
    (c : Cell) : (setColRow h r name c).length = r.length := by
  induction h generalizing r with
  | nil => cases r <;> rfl
  | cons c0 h ih =>
      cases r with
      | nil => rfl
      | cons v rest =>
          simp only [setColRow]
          split <;> simp [ih]

theorem rowVal_setColRow_self (h : List String) (r : List Cell)
    (name : String) (c : Cell) (hmem : name ∈ h) (hlen : r.length = h.length) :
    rowVal h (setColRow h r name c) name = c := by
  induction h generalizing r with
  | nil => cases hmem
  | cons c0 hs ih =>
      cases r with
      | nil => simp at hlen
      | cons v rest =>
          simp only [setColRow]
          by_cases hc : c0 = name
          · simp [hc, rowVal]
          · rw [if_neg hc]
            simp only [rowVal, if_neg hc]
            have : name ∈ hs := by
              rcases List.mem_cons.mp hmem with h1 | h1
              · exact absurd h1.symm hc
              · exact h1
            exact ih rest this (by simpa using hlen)

theorem rowVal_setColRow_ne (h : List String) (r : List Cell)
    (name n' : String) (c : Cell) (hne : n' ≠ name) :
    rowVal h (setColRow h r name c) n' = rowVal h r n' := by
  induction h generalizing r with
  | nil => cases r <;> rfl
  | cons c0 hs ih =>
      cases r with
      | nil => rfl
      | cons v rest =>
          simp only [setColRow]
          by_cases hc : c0 = name
          · subst hc
            simp only [rowVal]
            rw [if_neg (fun hh => hne hh.symm), if_neg (fun hh => hne hh.symm)]
          · rw [if_neg hc]
            simp only [rowVal]
            split
            · rfl
            · exact ih rest

theorem rowVal_append_self (h : List String) (r : List Cell) (name : String)
    (c : Cell) (hmem : ¬ name ∈ h) (hlen : r.length = h.length) :
    rowVal (h ++ [name]) (r ++ [c]) name = c := by
  induction h generalizing r with
  | nil =>
      cases r with
      | nil => simp [rowVal]
      | cons v rest => simp at hlen
  | cons c0 hs ih =>
      cases r with
      | nil => simp at hlen
      | cons v rest =>
          have hne : c0 ≠ name := fun hh => hmem (by simp [hh])
          simp only [List.cons_append, rowVal, if_neg hne]
          exact ih rest (fun hh => hmem (by simp [hh])) (by simpa using hlen)

theorem rowVal_append_ne (h : List String) (r : List Cell) (name n' : String)
    (c : Cell) (hne : n' ≠ name) (hlen : r.length = h.length) :
    rowVal (h ++ [name]) (r ++ [c]) n' = rowVal h r n' := by
  induction h generalizing r with
  | nil =>
      cases r with
      | nil =>
          simp only [List.nil_append, rowVal]
          rw [if_neg (fun hh : name = n' => hne hh.symm)]
      | cons v rest => simp at hlen
  | cons c0 hs ih =>
      cases r with
      | nil => simp at hlen
      | cons v rest =>
          simp only [List.cons_append, rowVal]
          split
          · rfl
          · exact ih rest (by simpa using hlen)

theorem mem_setColHeader_self (h : List String) (name : String) :
    name ∈ setColHeader h name := by
  unfold setColHeader
  split
  · assumption
  · simp

theorem mem_setColHeader_of_mem (h : List String) (name a : String)
    (ha : a ∈ h) : a ∈ setColHeader h name := by
  unfold setColHeader
  split
  · exact ha
  · simp [ha]

theorem nodup_setColHeader (h : List String) (name : String)
    (hnd : h.Nodup) : (setColHeader h name).Nodup := by
  unfold setColHeader
  split
  · exact hnd
  · next hn =>
      rw [List.nodup_append]
      refine ⟨hnd, List.nodup_singleton _, ?_⟩
      intro a ha hb
      exact hn (List.mem_singleton.mp hb ▸ ha)

theorem length_setColFun (h : List String) (name : String) (c : Cell)
    (r : List Cell) (hlen : r.length = h.length) :
    (setColFun h name c r).length = (setColHeader h name).length := by
  unfold setColFun setColHeader
  split
  · simpa [length_setColRow] using hlen
  · simpa using hlen

theorem rowVal_setColFun_self (h : List String) (name : String) (c : Cell)
    (r : List Cell) (hlen : r.length = h.length) :
    rowVal (setColHeader h name) (setColFun h name c r) name = c := by
  unfold setColFun setColHeader
  split
  · next hmem => exact rowVal_setColRow_self h r name c hmem hlen
  · next hmem => exact rowVal_append_self h r name c hmem hlen

theorem rowVal_setColFun_ne (h : List String) (name n' : String) (c : Cell)
    (r : List Cell) (hne : n' ≠ name) (hlen : r.length = h.length) :
    rowVal (setColHeader h name) (setColFun h name c r) n' = rowVal h r n' := by
  unfold setColFun setColHeader
  split
  · exact rowVal_setColRow_ne h r name n' c hne
  · exact rowVal_append_ne h r name n' c hne hlen

/-- The rows of a stamped table are the original rows transformed by the
two column assignments. -/
theorem stampTable_rows (year : Int) (w : Rat) (t : Table) :
    (stampTable year w t).rows =
      t.rows.map (fun r =>
        setColFun (setColHeader t.header "year") "weight" (Cell.num w)
          (setColFun t.header "year" (Cell.int year) r)) := by
  simp [stampTable, Table.setCol, List.map_map]

theorem stampTable_header (year : Int) (w : Rat) (t : Table) :
    (stampTable year w t).header =
      setColHeader (setColHeader t.header "year") "weight" := rfl

theorem stampTable_WF (year : Int) (w : Rat) (t : Table) (hwf : t.WF) :
    (stampTable year w t).WF := by
  intro r hr
  rw [stampTable_rows] at hr
  rcases List.mem_map.mp hr with ⟨r0, hr0, rfl⟩
  rw [stampTable_header]
  rw [length_setColFun _ _ _ _ (length_setColFun _ _ _ _ (hwf r0 hr0))]

theorem rowVal_stamp_weight (year : Int) (w : Rat) (t : Table) (hwf : t.WF)
    (r : List Cell) (hr : r ∈ (stampTable year w t).rows) :
    rowVal (stampTable year w t).header r "weight" = Cell.num w := by
  rw [stampTable_rows] at hr
  rcases List.mem_map.mp hr with ⟨r0, hr0, rfl⟩
  rw [stampTable_header]
  exact rowVal_setColFun_self _ _ _ _ (length_setColFun _ _ _ _ (hwf r0 hr0))

theorem rowVal_stamp_year (year : Int) (w : Rat) (t : Table) (hwf : t.WF)
    (r : List Cell) (hr : r ∈ (stampTable year w t).rows) :
    rowVal (stampTable year w t).header r "year" = Cell.int year := by
  rw [stampTable_rows] at hr
  rcases List.mem_map.mp hr with ⟨r0, hr0, rfl⟩
  rw [stampTable_header]
  rw [rowVal_setColFun_ne _ _ _ _ _ (by decide)
    (length_setColFun _ _ _ _ (hwf r0 hr0))]
  exact rowVal_setColFun_self _ _ _ _ (hwf r0 hr0)

theorem mem_stamp_header_weight (year : Int) (w : Rat) (t : Table) :
    "weight" ∈ (stampTable year w t).header := by
  rw [stampTable_header]
  exact mem_setColHeader_self _ _

theorem mem_stamp_header_year (year : Int) (w : Rat) (t : Table) :
    "year" ∈ (stampTable year w t).header := by
  rw [stampTable_header]
  exact mem_setColHeader_of_mem _ _ _ (mem_setColHeader_self _ _)

/-! ### Lemmas about reindexing and concatenation -/

theorem rowVal_map (fullH : List String) (g : String → Cell) (name : String) :
    rowVal fullH (fullH.map g) name =
      if name ∈ fullH then g name else Cell.nan := by
  induction fullH with
  | nil => simp [rowVal]
  | cons c h ih =>
      simp only [List.map_cons, rowVal]
      by_cases hc : c = name
      · subst hc; simp
      · rw [if_neg hc, ih]
        by_cases hm : name ∈ h
        · simp [hm, hc, Ne.symm hc]
        · simp only [hm, if_neg hm]
          have hnc : ¬ name = c := fun hh => hc hh.symm
          simp [hnc, hm]

theorem rowVal_reindex (oldH fullH : List String) (r : List Cell)
    (name : String) (hmem : name ∈ fullH) :
    rowVal fullH (reindexRow oldH fullH r) name = rowVal oldH r name := by
  unfold reindexRow
  rw [rowVal_map, if_pos hmem]

theorem length_reindexRow (oldH fullH : List String) (r : List Cell) :
    (reindexRow oldH fullH r).length = fullH.length := by
  simp [reindexRow]

theorem reindexRow_self (H : List String) (r : List Cell) (hnd : H.Nodup)
    (hlen : r.length = H.length) : reindexRow H H r = r := by
  unfold reindexRow
  induction H generalizing r with
  | nil => cases r with
      | nil => rfl
      | cons v rest => simp at hlen
  | cons c h ih =>
      cases r with
      | nil => simp at hlen
      | cons v rest =>
          simp only [List.map_cons]
          have h1 : rowVal (c :: h) (v :: rest) c = v := by simp [rowVal]
          rw [h1]
          have hcn : ¬ c ∈ h := (List.nodup_cons.mp hnd).1
          have h2 : h.map (fun n => rowVal (c :: h) (v :: rest) n)
              = h.map (fun n => rowVal h rest n) := by
            apply List.map_congr_left
            intro a ha
            have : ¬ c = a := fun hh => hcn (hh ▸ ha)
            simp [rowVal, this]
          rw [h2, ih rest (List.nodup_cons.mp hnd).2 (by simpa using hlen)]

theorem mem_headerUnion_aux (a : String) :
    ∀ (hs : List (List String)) (acc : List String),
      (a ∈ acc ∨ ∃ h ∈ hs, a ∈ h) →
      a ∈ hs.foldl (fun acc h => acc ++ h.filter (fun c => ¬ c ∈ acc)) acc := by
  intro hs
  induction hs with
  | nil =>
      intro acc hmem
      rcases hmem with h1 | ⟨h, hh, _⟩
      · exact h1
      · cases hh
  | cons h0 hs ih =>
      intro acc hmem
      simp only [List.foldl_cons]
      apply ih
      rcases hmem with h1 | ⟨h, hh, ha⟩
      · exact Or.inl (List.mem_append_left _ h1)
      · rcases List.mem_cons.mp hh with rfl | hh2
        · left
          by_cases hacc : a ∈ acc
          · exact List.mem_append_left _ hacc
          · exact List.mem_append_right _ (by simp [List.mem_filter, ha, hacc])
        · exact Or.inr ⟨h, hh2, ha⟩

theorem mem_headerUnion (a : String) (hs : List (List String))
    (h : List String) (hh : h ∈ hs) (ha : a ∈ h) : a ∈ headerUnion hs :=
  mem_headerUnion_aux a hs [] (Or.inr ⟨h, hh, ha⟩)

theorem headerUnion_const (hs : List (List String)) (H : List String)
    (hconst : ∀ h ∈ hs, h = H) (hne : hs ≠ []) : headerUnion hs = H := by
  unfold headerUnion
  cases hs with
  | nil => cases hne rfl
  | cons h0 rest =>
      have h0H : h0 = H := hconst h0 (by simp)
      subst h0H
      simp only [List.foldl_cons, List.nil_append]
      have hfilter : h0.filter (fun c => ¬ c ∈ ([] : List String)) = h0 := by
        simp
      rw [hfilter]
      have : ∀ (l : List (List String)), (∀ h ∈ l, h = h0) →
          l.foldl (fun acc h => acc ++ h.filter (fun c => ¬ c ∈ acc)) h0 = h0 := by
        intro l
        induction l with
        | nil => intro _; rfl
        | cons x xs ih =>
            intro hl
            have hx : x = h0 := hl x (by simp)
            subst hx
            simp only [List.foldl_cons]
            have : x.filter (fun c => ¬ c ∈ x) = [] := by
              apply List.filter_eq_nil_iff.mpr
              intro a ha
              simp [ha]
            rw [this, List.append_nil]
            exact ih (fun h hh => hl h (by simp [hh]))
      exact this rest (fun h hh => hconst h (by simp [hh]))

theorem concatTables_header (ts : List Table) :
    (concatTables ts).header = headerUnion (ts.map Table.header) := rfl

theorem concatTables_rows (ts : List Table) :
    (concatTables ts).rows =
      (ts.map (fun t => t.rows.map
        (reindexRow t.header (headerUnion (ts.map Table.header))))).flatten := rfl

theorem concatTables_rows_length (ts : List Table) :
    (concatTables ts).rows.length = (ts.map (fun t => t.rows.length)).sum := by
  rw [concatTables_rows]
  rw [List.length_flatten]
  congr 1
  rw [List.map_map]
  apply List.map_congr_left
  intro t _
  simp

theorem mem_concatTables_rows (ts : List Table) (r : List Cell)
    (hr : r ∈ (concatTables ts).rows) :
    ∃ t ∈ ts, ∃ r0 ∈ t.rows,
      r = reindexRow t.header (headerUnion (ts.map Table.header)) r0 := by
  rw [concatTables_rows] at hr
  rcases List.mem_flatten.mp hr with ⟨l, hl, hrl⟩
  rcases List.mem_map.mp hl with ⟨t, ht, rfl⟩
  rcases List.mem_map.mp hrl with ⟨r0, hr0, rfl⟩
  exact ⟨t, ht, r0, hr0, rfl⟩

/-! ### Structure of `weight_by_recency` -/

theorem weightedList_eq_aux (recent : List Int) (bw ew : Rat) :
    ∀ (m : List (Int × Table)) (acc : List Table),
      m.foldl
        (fun acc p =>
          if p.2.rows.isEmpty then acc else acc ++ [stampOf recent bw ew p])
        acc =
      acc ++ (m.filter (fun p => !p.2.rows.isEmpty)).map (stampOf recent bw ew) := by
  intro m
  induction m with
  | nil => intro acc; simp
  | cons p rest ih =>
      intro acc
      simp only [List.foldl_cons]
      by_cases hp : p.2.rows.isEmpty
      · rw [if_pos hp, ih, List.filter_cons_of_neg (by simp [hp])]
      · rw [if_neg hp, ih, List.filter_cons_of_pos (by simp [hp])]
        simp

theorem weightedList_eq (recent : List Int) (bw ew : Rat)
    (m : List (Int × Table)) :
    weightedList recent bw ew m =
      (m.filter (fun p => !p.2.rows.isEmpty)).map (stampOf recent bw ew) := by
  unfold weightedList
  simpa using weightedList_eq_aux recent bw ew m []

/-- The emphasized years of `weight_by_recency` equal the recent_years
expression evaluated on the sorted year list of the mapping. -/
theorem weight_by_recency_ok_elim (m : List (Int × Table))
    (e : Int) (bw ew : Rat) (t : Table)
    (hok : weight_by_recency m e bw ew = Except.ok t) :
    m ≠ [] ∧
    weightedList (recentYears e (sortYears (m.map Prod.fst))) bw ew m ≠ [] ∧
    t = concatTables (weightedList (recentYears e (sortYears (m.map Prod.fst))) bw ew m) := by
  unfold weight_by_recency at hok
  by_cases hm : m.isEmpty
  · rw [if_pos hm] at hok; cases hok
  · rw [if_neg hm] at hok
    simp only [] at hok
    by_cases hw : (weightedList (recentYears e (sortYears (m.map Prod.fst))) bw ew m).isEmpty
    · rw [if_pos hw] at hok; cases hok
    · rw [if_neg hw] at hok
      refine ⟨fun hnil => hm (by simp [hnil]), fun hnil => hw (by simp [hnil]), ?_⟩
      cases hok
      rfl

theorem weight_by_recency_eq_ok (m : List (Int × Table))
    (e : Int) (bw ew : Rat) (hm : m ≠ [])
    (hw : weightedList (recentYears e (sortYears (m.map Prod.fst))) bw ew m ≠ []) :
    weight_by_recency m e bw ew =
      Except.ok (concatTables
        (weightedList (recentYears e (sortYears (m.map Prod.fst))) bw ew m)) := by
  unfold weight_by_recency
  rw [if_neg (by simpa using hm)]
  simp only []
  rw [if_neg (by simpa using hw)]

theorem sortYears_length (l : List Int) : (sortYears l).length = l.length :=
  List.length_insertionSort _ l

theorem sortYears_mem (l : List Int) (a : Int) :
    a ∈ sortYears l ↔ a ∈ l := List.mem_insertionSort _

/-- For a positive emphasis count the code's `recent_years` is exactly
the suffix of the sorted year list of length
`min(emphasis_years, number of years)`. -/
theorem recentYears_eq_drop (e : Int) (ys : List Int) (he : 1 ≤ e) :
    recentYears e ys = ys.drop (ys.length - min (Int.toNat e) ys.length) := by
  unfold recentYears pySliceFrom
  by_cases hc : e ≤ (ys.length : Int)
  · rw [if_pos hc, if_pos (by omega)]
    congr 1
    omega
  · rw [if_neg hc]
    have : ys.length - min (Int.toNat e) ys.length = 0 := by omega
    rw [this, List.drop_zero]

theorem stampTable_rows_length (year : Int) (w : Rat) (t : Table) :
    (stampTable year w t).rows.length = t.rows.length := by
  rw [stampTable_rows, List.length_map]

theorem sum_counts_filter (m : List (Int × Table)) :
    ((m.filter (fun p => !p.2.rows.isEmpty)).map
      (fun p => p.2.rows.length)).sum =
    (m.map (fun p => p.2.rows.length)).sum := by
  induction m with
  | nil => rfl
  | cons p rest ih =>
      by_cases hp : p.2.rows.isEmpty
      · rw [List.filter_cons_of_neg (by simp [hp])]
        have : p.2.rows.length = 0 := by
          simpa [List.isEmpty_iff, List.length_eq_zero] using hp
        simp [this, ih]
      · rw [List.filter_cons_of_pos (by simp [hp])]
        simp [ih]

/-- On a mapping with at least one non-empty table, `weight_by_recency`
returns and its combined row count is the sum of the input row counts. -/
theorem wbr_ok_total (m : List (Int × Table)) (e : Int) (bw ew : Rat)
    (h : ∃ p ∈ m, p.2.rows ≠ []) :
    ∃ t, weight_by_recency m e bw ew = Except.ok t ∧
      t.rows.length = (m.map (fun p => p.2.rows.length)).sum := by
  rcases h with ⟨p, hp, hpne⟩
  have hm : m ≠ [] := fun hnil => by simp [hnil] at hp
  set recent := recentYears e (sortYears (m.map Prod.fst)) with hrec
  have hpf : p ∈ m.filter (fun p => !p.2.rows.isEmpty) :=
    List.mem_filter.mpr ⟨hp, by simp [hpne]⟩
  have hw : weightedList recent bw ew m ≠ [] := by
    rw [weightedList_eq]
    intro hnil
    rw [List.map_eq_nil_iff] at hnil
    rw [hnil] at hpf
    cases hpf
  refine ⟨_, weight_by_recency_eq_ok m e bw ew hm hw, ?_⟩
  rw [concatTables_rows_length, weightedList_eq, List.map_map]
  have : ((fun t : Table => t.rows.length) ∘ stampOf recent bw ew)
      = fun p => p.2.rows.length := by
    funext q
    simp [Function.comp, stampOf, stampTable_rows_length]
  rw [this, sum_counts_filter]

theorem flatten_filter_map {α β : Type} (pred : α → Bool) (f : α → List β)
    (m : List α) (h : ∀ p ∈ m, pred p = false → f p = []) :
    ((m.filter pred).map f).flatten = (m.map f).flatten := by
  induction m with
  | nil => rfl
  | cons p rest ih =>
      by_cases hp : pred p
      · rw [List.filter_cons_of_pos hp]
        simp only [List.map_cons, List.flatten_cons]
        rw [ih (fun q hq => h q (by simp [hq]))]
      · rw [List.filter_cons_of_neg hp]
        simp only [List.map_cons, List.flatten_cons]
        rw [h p (by simp) (by simpa using hp), List.nil_append]
        exact ih (fun q hq => h q (by simp [hq]))

/-! ### Lemmas about the loader -/

theorem dictInsert_key (d : List (Int × Table)) (k : Int) (v : Table)
    (y : Int) :
    (∃ tb, (y, tb) ∈ dictInsert d k v) ↔ (y = k ∨ ∃ tb, (y, tb) ∈ d) := by
  unfold dictInsert
  by_cases hk : d.any (fun p => p.1 = k)
  · rw [if_pos hk]
    constructor
    · rintro ⟨tb, htb⟩
      rcases List.mem_map.mp htb with ⟨p, hp, heq⟩
      by_cases hpk : p.1 = k
      · rw [if_pos hpk] at heq
        left
        exact (Prod.mk.injEq _ _ _ _ ▸ heq).1.symm
      · rw [if_neg hpk] at heq
        right
        exact ⟨tb, heq ▸ hp⟩
    · rintro (rfl | ⟨tb, htb⟩)
      · rcases List.any_eq_true.mp hk with ⟨p, hp, hpk⟩
        have hpk' : p.1 = y := of_decide_eq_true hpk
        exact ⟨v, List.mem_map.mpr ⟨p, hp, by rw [if_pos hpk']⟩⟩
      · by_cases hyk : y = k
        · subst hyk
          exact ⟨v, List.mem_map.mpr ⟨(y, tb), htb, by rw [if_pos rfl]⟩⟩
        · exact ⟨tb, List.mem_map.mpr ⟨(y, tb), htb, by rw [if_neg hyk]⟩⟩
  · rw [if_neg hk]
    constructor
    · rintro ⟨tb, htb⟩
      rcases List.mem_append.mp htb with h1 | h1
      · right; exact ⟨tb, h1⟩
      · left
        have := List.mem_singleton.mp h1
        exact (Prod.mk.injEq _ _ _ _ ▸ this).1
    · rintro (rfl | ⟨tb, htb⟩)
      · exact ⟨v, List.mem_append_right _ (by simp)⟩
      · exact ⟨tb, List.mem_append_left _ htb⟩

theorem dictInsert_mem (d : List (Int × Table)) (k : Int) (v : Table)
    (y : Int) (tb : Table) (h : (y, tb) ∈ dictInsert d k v) :
    (y = k ∧ tb = v) ∨ (y, tb) ∈ d := by
  unfold dictInsert at h
  by_cases hk : d.any (fun p => p.1 = k)
  · rw [if_pos hk] at h
    rcases List.mem_map.mp h with ⟨p, hp, heq⟩
    by_cases hpk : p.1 = k
    · rw [if_pos hpk] at heq
      left
      have := Prod.mk.injEq _ _ _ _ ▸ heq
      exact ⟨this.1.symm, this.2.symm⟩
    · rw [if_neg hpk] at heq
      right
      exact heq ▸ hp
  · rw [if_neg hk] at h
    rcases List.mem_append.mp h with h1 | h1
    · right; exact h1
    · left
      have := List.mem_singleton.mp h1
      have h2 := Prod.mk.injEq _ _ _ _ ▸ this
      exact ⟨h2.1, h2.2⟩

theorem load_fold (fetch : String → Int → Option Table) (dt : String) :
    ∀ (years : List Int) (d0 : List (Int × Table)) (w0 : List String),
      (∀ y : Int,
        (∃ tb, (y, tb) ∈ (years.foldl (loadStep fetch dt) (d0, w0)).1) ↔
          ((∃ tb, (y, tb) ∈ d0) ∨ (y ∈ years ∧ fetch dt y ≠ none))) ∧
      ((∀ y tb, (y, tb) ∈ d0 → fetch dt y = some tb) →
        ∀ y tb, (y, tb) ∈ (years.foldl (loadStep fetch dt) (d0, w0)).1 →
          fetch dt y = some tb) ∧
      (years.foldl (loadStep fetch dt) (d0, w0)).2 =
        w0 ++ (years.filter (fun y => (fetch dt y).isNone)).map
          (fun y => "Warning: " ++ notFoundMsg dt y) := by
  intro years
  induction years with
  | nil =>
      intro d0 w0
      refine ⟨fun y => by simp, fun h => h, by simp⟩
  | cons y0 rest ih =>
      intro d0 w0
      simp only [List.foldl_cons]
      cases hf : fetch dt y0 with
      | some t =>
          have hstep : loadStep fetch dt (d0, w0) y0 = (dictInsert d0 y0 t, w0) := by
            unfold loadStep
            rw [hf]
          rw [hstep]
          obtain ⟨ih1, ih2, ih3⟩ := ih (dictInsert d0 y0 t) w0
          refine ⟨?_, ?_, ?_⟩
          · intro y
            rw [ih1 y, dictInsert_key]
            have hy0 : y = y0 → fetch dt y ≠ none := by
              rintro rfl
              rw [hf]
              simp
            simp only [List.mem_cons]
            constructor
            · rintro ((rfl | h1) | h2)
              · exact Or.inr ⟨Or.inl rfl, hy0 rfl⟩
              · exact Or.inl h1
              · exact Or.inr ⟨Or.inr h2.1, h2.2⟩
            · rintro (h1 | ⟨(rfl | h2), h3⟩)
              · exact Or.inl (Or.inr h1)
              · exact Or.inl (Or.inl rfl)
              · exact Or.inr ⟨h2, h3⟩
          · intro hd0 y tb htb
            refine ih2 ?_ y tb htb
            intro y' tb' h'
            rcases dictInsert_mem d0 y0 t y' tb' h' with ⟨rfl, rfl⟩ | h2
            · exact hf
            · exact hd0 y' tb' h2
          · rw [ih3, List.filter_cons_of_neg (by simp [hf])]
      | none =>
          have hstep : loadStep fetch dt (d0, w0) y0 =
              (d0, w0 ++ ["Warning: " ++ notFoundMsg dt y0]) := by
            unfold loadStep
            rw [hf]
          rw [hstep]
          obtain ⟨ih1, ih2, ih3⟩ := ih d0 (w0 ++ ["Warning: " ++ notFoundMsg dt y0])
          refine ⟨?_, ?_, ?_⟩
          · intro y
            rw [ih1 y]
            have hy0 : y = y0 → fetch dt y = none := by
              rintro rfl
              exact hf
            simp only [List.mem_cons]
            constructor
            · rintro (h1 | h2)
              · exact Or.inl h1
              · exact Or.inr ⟨Or.inr h2.1, h2.2⟩
            · rintro (h1 | ⟨(rfl | h2), h3⟩)
              · exact Or.inl h1
              · exact absurd (hy0 rfl) h3
              · exact Or.inr ⟨h2, h3⟩
          · exact fun hd0 => ih2 hd0
          · rw [ih3, List.filter_cons_of_pos (by simp [hf])]
            simp

/-! ### Lemmas about column dropping -/

theorem dropColHeader_eq_filter (h : List String) (name : String)
    (hnd : h.Nodup) :
    dropColHeader h name = h.filter (fun c => ¬ c = name) := by
  induction h with
  | nil => rfl
  | cons c h0 ih =>
      by_cases hc : c = name
      · subst hc
        rw [List.filter_cons_of_neg (by simp)]
        unfold dropColHeader
        rw [if_pos rfl]
        have hnotin : ¬ c ∈ h0 := (List.nodup_cons.mp hnd).1
        symm
        apply List.filter_eq_self.mpr
        intro b hb
        simp only [decide_eq_true_eq]
        exact fun hbc => hnotin (hbc ▸ hb)
      · rw [List.filter_cons_of_pos (by simp [hc])]
        unfold dropColHeader
        rw [if_neg hc, ih (List.nodup_cons.mp hnd).2]

theorem not_mem_dropColHeader (h : List String) (name : String)
    (hnd : h.Nodup) : ¬ name ∈ dropColHeader h name := by
  rw [dropColHeader_eq_filter h name hnd]
  intro hmem
  have := List.of_mem_filter hmem
  simp at this

theorem rowVal_dropCol (h : List String) (r : List Cell)
    (name key : String) (hne : name ≠ key) :
    rowVal (dropColHeader h key) (dropColRow h r key) name = rowVal h r name := by
  induction h generalizing r with
  | nil =>
      cases r with
      | nil => rfl
      | cons v rest => rfl
  | cons c h0 ih =>
      cases r with
      | nil =>
          unfold dropColRow
          unfold dropColHeader
          by_cases hc : c = key
          · rw [if_pos hc]
            cases h0 <;> rfl
          · rw [if_neg hc]
            rfl
      | cons v rest =>
          unfold dropColRow dropColHeader
          by_cases hc : c = key
          · rw [if_pos hc, if_pos hc]
            have hcn : ¬ c = name := fun hh => hne (hh ▸ hc)
            simp only [rowVal, if_neg hcn]
          · rw [if_neg hc, if_neg hc]
            simp only [rowVal]
            split
            · rfl
            · exact ih rest

/-! ### Lemmas about the model factory -/

theorem create_model_untrained (model_type : String)
    (params : Option (List (String × Cell))) (m : MLModel)
    (h : create_model model_type params = Except.ok m) :
    m.is_trained = false := by
  unfold create_model at h
  split at h
  · cases h; rfl
  · split at h
    · cases h; rfl
    · split at h
      · cases h; rfl
      · split at h
        · cases h; rfl
        · cases h

/-! ### The claims -/

/-- C1 (amended): for every mapping of year to table and every
`emphasis_years ≥ 1` and `base_weight ≠ emphasis_weight`, each row of
the table returned by `weight_by_recency` carries a weight that is
either `base_weight` or `emphasis_weight`, and a row's weight equals
`emphasis_weight` iff its year lies in the suffix of the
ascending-sorted year list of length `min(emphasis_years, number of
years)`.  (For `emphasis_years = 0` the code emphasizes every year —
the Python slice `years[-0:]` is the whole list — so the restriction to
`emphasis_years ≥ 1` is necessary, as the counterexample shows.) -/
theorem wbr_weight_emphasis_window (m : List (Int × Table)) (e : Int)
    (bw ew : Rat) (t : Table)
    (hwf : ∀ p ∈ m, (p.2).WF) (he : 1 ≤ e) (hbe : bw ≠ ew)
    (hok : weight_by_recency m e bw ew = Except.ok t) :
    ∀ r ∈ t.rows,
      (rowVal t.header r "weight" = Cell.num bw ∨
       rowVal t.header r "weight" = Cell.num ew) ∧
      (rowVal t.header r "weight" = Cell.num ew ↔
        ∃ y : Int, rowVal t.header r "year" = Cell.int y ∧
          y ∈ (sortYears (m.map Prod.fst)).drop
                (m.length - min (Int.toNat e) m.length)) := by
  obtain ⟨hm, hwl, ht⟩ := weight_by_recency_ok_elim m e bw ew t hok
  subst ht
  set recent := recentYears e (sortYears (m.map Prod.fst)) with hrecdef
  set wl := weightedList recent bw ew m with hwldef
  have hwin : recent =
      (sortYears (m.map Prod.fst)).drop
        (m.length - min (Int.toNat e) m.length) := by
    rw [hrecdef, recentYears_eq_drop _ _ he, sortYears_length, List.length_map]
  intro r hr
  obtain ⟨tb, htb, r0, hr0, rfl⟩ := mem_concatTables_rows wl r hr
  have htb' := htb
  rw [hwldef, weightedList_eq] at htb'
  obtain ⟨p, hpf, htbp⟩ := List.mem_map.mp htb'
  have hp : p ∈ m := (List.mem_filter.mp hpf).1
  have hwfp : (p.2).WF := hwf p hp
  set w : Rat := if p.1 ∈ recent then ew else bw with hwdef
  have hstamp : tb = stampTable p.1 w p.2 := by
    rw [← htbp]; rfl
  have hweightfull : "weight" ∈ headerUnion (wl.map Table.header) :=
    mem_headerUnion _ _ tb.header (List.mem_map_of_mem _ htb)
      (by rw [hstamp]; exact mem_stamp_header_weight _ _ _)
  have hyearfull : "year" ∈ headerUnion (wl.map Table.header) :=
    mem_headerUnion _ _ tb.header (List.mem_map_of_mem _ htb)
      (by rw [hstamp]; exact mem_stamp_header_year _ _ _)
  have hweight :
      rowVal (concatTables wl).header
        (reindexRow tb.header (headerUnion (wl.map Table.header)) r0)
        "weight" = Cell.num w := by
    rw [concatTables_header, rowVal_reindex _ _ _ _ hweightfull]
    rw [hstamp] at hr0 ⊢
    exact rowVal_stamp_weight p.1 w p.2 hwfp r0 hr0
  have hyear :
      rowVal (concatTables wl).header
        (reindexRow tb.header (headerUnion (wl.map Table.header)) r0)
        "year" = Cell.int p.1 := by
    rw [concatTables_header, rowVal_reindex _ _ _ _ hyearfull]
    rw [hstamp] at hr0 ⊢
    exact rowVal_stamp_year p.1 w p.2 hwfp r0 hr0
  rw [hweight, hyear]
  by_cases hmem : p.1 ∈ recent
  · have hwew : w = ew := by rw [hwdef, if_pos hmem]
    rw [hwew]
    refine ⟨Or.inr rfl, ?_⟩
    constructor
    · intro _
      exact ⟨p.1, rfl, hwin ▸ hmem⟩
    · intro _
      rfl
  · have hwbw : w = bw := by rw [hwdef, if_neg hmem]
    rw [hwbw]
    refine ⟨Or.inl rfl, ?_⟩
    constructor
    · intro hcontra
      exact absurd (Cell.num.inj hcontra) hbe
    · rintro ⟨y, hy, hymem⟩
      have : p.1 = y := Cell.int.inj hy
      subst this
      exact absurd (hwin ▸ hymem) hmem

/-- Example instance of C1: the two-year mapping with one emphasized
year. -/
theorem wbr_weight_emphasis_window_witness :
    ((∀ p ∈ [((2021:Int), Tb), (2020, Ta)], (p.2).WF) ∧ (1:Int) ≤ 1 ∧
      (1:Rat) ≠ 2) ∧
    (∀ r ∈ Tw.rows,
      (rowVal Tw.header r "weight" = Cell.num 1 ∨
       rowVal Tw.header r "weight" = Cell.num 2) ∧
      (rowVal Tw.header r "weight" = Cell.num 2 ↔
        ∃ y : Int, rowVal Tw.header r "year" = Cell.int y ∧
          y ∈ (sortYears ([((2021:Int), Tb), (2020, Ta)].map Prod.fst)).drop
                ([((2021:Int), Tb), (2020, Ta)].length -
                  min (Int.toNat 1) [((2021:Int), Tb), (2020, Ta)].length))) :=
  ⟨⟨by decide, by decide, by decide⟩,
   wbr_weight_emphasis_window [((2021:Int), Tb), (2020, Ta)] 1 1 2 Tw
     (by decide) (by decide) (by decide) (by decide)⟩

/-- C1 as frozen is false: with `emphasis_years = 0` (and distinct
weights 1 and 2) the single year 2020 is outside the suffix of length
`min(0, 1) = 0` of the sorted year list, yet its row is stamped with the
emphasis weight 2, because `years[-0:]` is the whole year list. -/
theorem wbr_weight_emphasis_window_counterexample :
    weight_by_recency [((2020:Int), Ta)] 0 1 2 = Except.ok Tcex ∧
    rowVal Tcex.header (Tcex.rows.getD 0 []) "weight" = Cell.num 2 ∧
    rowVal Tcex.header (Tcex.rows.getD 0 []) "year" = Cell.int 2020 ∧
    Cell.num (2 : Rat) ≠ Cell.num 1 ∧
    ¬ ((2020:Int) ∈ (sortYears ([((2020:Int), Ta)].map Prod.fst)).drop
        ([((2020:Int), Ta)].length -
          min (Int.toNat 0) [((2020:Int), Ta)].length)) := by
  refine ⟨?_, ?_, ?_, ?_, ?_⟩ <;> decide

/-- C2: on a mapping with at least one non-empty table, the combined
table's row count equals the sum of the input row counts (empty tables
contribute zero rows, no row is deduplicated or dropped). -/
theorem wbr_row_count_sum (m : List (Int × Table)) (e : Int) (bw ew : Rat)
    (h : ∃ p ∈ m, p.2.rows ≠ []) :
    ∃ t, weight_by_recency m e bw ew = Except.ok t ∧
      t.rows.length = (m.map (fun p => p.2.rows.length)).sum :=
  wbr_ok_total m e bw ew h

/-- Example instance of C2: three rows in, three rows out, an empty
table contributing zero. -/
theorem wbr_row_count_sum_witness :
    (∃ p ∈ [((2021:Int), Tb), (2020, Ta), (2019, Tempty)], p.2.rows ≠ []) ∧
    ∃ t, weight_by_recency [((2021:Int), Tb), (2020, Ta), (2019, Tempty)] 2 1 2 =
        Except.ok t ∧
      t.rows.length =
        ([((2021:Int), Tb), (2020, Ta), (2019, Tempty)].map
          (fun p => p.2.rows.length)).sum :=
  ⟨by decide, wbr_row_count_sum _ 2 1 2 (by decide)⟩

/-- C3: an empty mapping fails with the `No data provided` availability
error, a non-empty mapping of empty tables fails with the distinct
`No valid data frames to combine` availability error, and a mapping with
at least one non-empty table returns normally. -/
theorem wbr_data_availability_errors :
    (∀ (e : Int) (bw ew : Rat), weight_by_recency [] e bw ew =
        Except.error (PyError.valueError "No data provided")) ∧
    (∀ (m : List (Int × Table)) (e : Int) (bw ew : Rat), m ≠ [] →
      (∀ p ∈ m, p.2.rows = []) → weight_by_recency m e bw ew =
        Except.error (PyError.valueError "No valid data frames to combine")) ∧
    ("No data provided" ≠ "No valid data frames to combine") ∧
    (∀ (m : List (Int × Table)) (e : Int) (bw ew : Rat),
      (∃ p ∈ m, p.2.rows ≠ []) → ∃ t, weight_by_recency m e bw ew = Except.ok t) := by
  refine ⟨fun e bw ew => rfl, ?_, by decide, ?_⟩
  · intro m e bw ew hm hall
    have hwl : weightedList (recentYears e (sortYears (m.map Prod.fst))) bw ew m = [] := by
      rw [weightedList_eq]
      have : m.filter (fun p => !p.2.rows.isEmpty) = [] :=
        List.filter_eq_nil_iff.mpr (fun p hp => by simp [hall p hp])
      rw [this]
      rfl
    unfold weight_by_recency
    rw [if_neg (by simpa using hm)]
    simp only [hwl]
    rfl
  · intro m e bw ew h
    rcases wbr_ok_total m e bw ew h with ⟨t, hok, _⟩
    exact ⟨t, hok⟩

/-- Example instance of C3: the all-empty failure and a normal return. -/
theorem wbr_data_availability_errors_witness :
    (([((2020:Int), Tempty)] : List (Int × Table)) ≠ [] ∧
      weight_by_recency [((2020:Int), Tempty)] 2 1 2 =
        Except.error (PyError.valueError "No valid data frames to combine")) ∧
    (∃ t, weight_by_recency [((2020:Int), Ta)] 2 1 2 = Except.ok t) :=
  ⟨⟨by decide, wbr_data_availability_errors.2.1 _ 2 1 2 (by decide) (by decide)⟩,
   wbr_data_availability_errors.2.2.2 _ 2 1 2 (by decide)⟩

/-- C4: the output rows of `weight_by_recency` are exactly the
concatenation of the per-year stamped tables in the mapping's insertion
order, each table's internal row order preserved; the ascending sort of
the years selects the emphasis window only and never reorders the
rows.  The tables of one mapping share one duplicate-free column list
`H`, as the tables of one data type do. -/
theorem wbr_concatenation_insertion_order (m : List (Int × Table))
    (e : Int) (bw ew : Rat) (H : List String) (t : Table)
    (hH : ∀ p ∈ m, (p.2).header = H) (hwf : ∀ p ∈ m, (p.2).WF)
    (hnd : H.Nodup) (hok : weight_by_recency m e bw ew = Except.ok t) :
    t.rows = (m.map (fun p =>
      (stampTable p.1
        (if p.1 ∈ recentYears e (sortYears (m.map Prod.fst)) then ew else bw)
        p.2).rows)).flatten := by
  obtain ⟨hm, hwl, ht⟩ := weight_by_recency_ok_elim m e bw ew t hok
  subst ht
  set recent := recentYears e (sortYears (m.map Prod.fst)) with hrecdef
  set wl := weightedList recent bw ew m with hwldef
  set SH := setColHeader (setColHeader H "year") "weight" with hSHdef
  have hall : ∀ tb ∈ wl, tb.header = SH ∧ tb.WF := by
    intro tb htb
    rw [hwldef, weightedList_eq] at htb
    obtain ⟨p, hpf, rfl⟩ := List.mem_map.mp htb
    have hp : p ∈ m := (List.mem_filter.mp hpf).1
    constructor
    · show (stampTable p.1 _ p.2).header = SH
      rw [stampTable_header, hH p hp]
    · exact stampTable_WF _ _ _ (hwf p hp)
  have hndSH : SH.Nodup :=
    nodup_setColHeader _ _ (nodup_setColHeader _ _ hnd)
  have hfull : headerUnion (wl.map Table.header) = SH := by
    apply headerUnion_const
    · intro h hh
      rcases List.mem_map.mp hh with ⟨tb, htb, rfl⟩
      exact (hall tb htb).1
    · intro hnil
      rw [List.map_eq_nil_iff] at hnil
      exact hwl hnil
  rw [concatTables_rows, hfull]
  have hid : ∀ tb ∈ wl, tb.rows.map (reindexRow tb.header SH) = tb.rows := by
    intro tb htb
    obtain ⟨hh, hwftb⟩ := hall tb htb
    rw [hh]
    have : ∀ r ∈ tb.rows, reindexRow SH SH r = r := by
      intro r hr
      exact reindexRow_self SH r hndSH (by rw [← hh]; exact hwftb r hr)
    calc tb.rows.map (reindexRow SH SH) = tb.rows.map id :=
          List.map_congr_left (fun r hr => this r hr)
      _ = tb.rows := List.map_id _
  have h1 : wl.map (fun tb => tb.rows.map (reindexRow tb.header SH))
      = wl.map Table.rows :=
    List.map_congr_left (fun tb htb => hid tb htb)
  rw [h1, hwldef, weightedList_eq, List.map_map]
  exact flatten_filter_map _ _ m (by
    intro p _ hp
    show (stampOf recent bw ew p).rows = []
    have : p.2.rows = [] := by simpa using hp
    rw [stampOf, stampTable_rows, this]
    rfl)

/-- Example instance of C4: insertion order 2021 before 2020 is kept
although the sorted year order is 2020 before 2021. -/
theorem wbr_concatenation_insertion_order_witness :
    ((∀ p ∈ [((2021:Int), Tb), (2020, Ta)], (p.2).header = ["a"]) ∧
      (["a"] : List String).Nodup) ∧
    Tw.rows = ([((2021:Int), Tb), (2020, Ta)].map (fun p =>
      (stampTable p.1
        (if p.1 ∈ recentYears 1
            (sortYears ([((2021:Int), Tb), (2020, Ta)].map Prod.fst))
          then (2:Rat) else (1:Rat))
        p.2).rows)).flatten :=
  ⟨⟨by decide, by decide⟩,
   wbr_concatenation_insertion_order [((2021:Int), Tb), (2020, Ta)] 1 1 2
     ["a"] Tw (by decide) (by decide) (by decide) (by decide)⟩

/-- C5: `create_team_features` and `create_matchup_features` are literal
pass-throughs of `weight_by_recency`: whenever they return, the result
is the recency weighting of the team stats (resp. games) mapping, for
any rankings mapping and any team-features table. -/
theorem features_are_pass_through :
    (∀ (ts : List (Int × Table)) (rk : Option (List (Int × Table)))
       (e : Int) (v : Table),
      create_team_features ts rk e = Except.ok v →
      weight_by_recency ts e 1 2 = Except.ok v) ∧
    (∀ (tf : Table) (g : List (Int × Table)) (e : Int) (v : Table),
      create_matchup_features tf g e = Except.ok v →
      weight_by_recency g e 1 2 = Except.ok v) := by
  constructor
  · intro ts rk e v h
    unfold create_team_features at h
    cases hts : weight_by_recency ts e 1 2 with
    | error err =>
        rw [hts] at h
        simp [Bind.bind, Except.bind] at h
    | ok w =>
        rw [hts] at h
        cases rk with
        | none =>
            simp only [Bind.bind, Except.bind, Pure.pure, Except.pure] at h
            exact h
        | some r =>
            by_cases hr : r.isEmpty
            · simp only [Bind.bind, Except.bind] at h
              rw [if_pos hr] at h
              simp only [Pure.pure, Except.pure] at h
              exact h
            · simp only [Bind.bind, Except.bind] at h
              rw [if_neg hr] at h
              cases hrk : weight_by_recency r e 1 2 with
              | error err2 =>
                  rw [hrk] at h
                  simp [Bind.bind, Except.bind] at h
              | ok w2 =>
                  rw [hrk] at h
                  simp only [Bind.bind, Except.bind, Pure.pure, Except.pure] at h
                  exact h
  · intro tf g e v h
    exact h

/-- Example instance of C5: both composition functions reproduce the
weighting of their mapping argument. -/
theorem features_are_pass_through_witness :
    weight_by_recency [((2020:Int), Ta)] 2 1 2 = Except.ok Ts1 ∧
    weight_by_recency [((2021:Int), Tb)] 2 1 2 = Except.ok Ts2 :=
  ⟨features_are_pass_through.1 [((2020:Int), Ta)]
      (some [((2021:Int), Tb)]) 2 Ts1 (by decide),
   features_are_pass_through.2 Tempty [((2021:Int), Tb)] 2 Ts2 (by decide)⟩

/-- C6: with a recognized data-type tag, `load_multi_year_data` returns
(it raises nothing); the returned mapping holds exactly the requested
years whose retrieval succeeded, each bound to what the retrieval
returned; and the warnings are exactly one `Warning: ...` line per
requested year whose retrieval signalled not-found. -/
theorem load_multi_year_data_skips_missing
    (fetch : String → Int → Option Table) (years : List Int)
    (data_type : String) (hdt : data_type ∈ dataTypes) :
    ∃ d w, load_multi_year_data fetch years data_type = Except.ok (d, w) ∧
      (∀ y : Int, (∃ tb, (y, tb) ∈ d) ↔
        (y ∈ years ∧ fetch data_type y ≠ none)) ∧
      (∀ y tb, (y, tb) ∈ d → fetch data_type y = some tb) ∧
      w = (years.filter (fun y => (fetch data_type y).isNone)).map
            (fun y => "Warning: " ++ notFoundMsg data_type y) := by
  have hfold := load_fold fetch data_type years [] []
  refine ⟨(years.foldl (loadStep fetch data_type) ([], [])).1,
          (years.foldl (loadStep fetch data_type) ([], [])).2, ?_, ?_, ?_, ?_⟩
  · unfold load_multi_year_data
    rw [if_neg (by simp [hdt])]
  · intro y
    have := hfold.1 y
    simpa using this
  · exact hfold.2.1 (by intro y tb h; cases h)
  · exact hfold.2.2

/-- Example instance of C6: year 2020 absent, year 2021 present. -/
theorem load_multi_year_data_skips_missing_witness :
    ("team_stats" ∈ dataTypes) ∧
    (∃ d w, load_multi_year_data fetch0 [2020, 2021] "team_stats" =
        Except.ok (d, w) ∧
      (∀ y : Int, (∃ tb, (y, tb) ∈ d) ↔
        (y ∈ [(2020:Int), 2021] ∧ fetch0 "team_stats" y ≠ none)) ∧
      (∀ y tb, (y, tb) ∈ d → fetch0 "team_stats" y = some tb) ∧
      w = ([(2020:Int), 2021].filter
            (fun y => (fetch0 "team_stats" y).isNone)).map
            (fun y => "Warning: " ++ notFoundMsg "team_stats" y)) :=
  ⟨by decide,
   load_multi_year_data_skips_missing fetch0 [2020, 2021] "team_stats" (by decide)⟩

/-- C7: an unrecognized data-type tag makes `load_multi_year_data` fail
with the configuration `ValueError` whatever the oracle and the year
list are (so no per-year retrieval is attempted), and an unrecognized
model-type tag makes `create_model` fail with its configuration
`ValueError`. -/
theorem unknown_tag_fails_fast :
    (∀ (fetch : String → Int → Option Table) (years : List Int)
       (data_type : String), ¬ data_type ∈ dataTypes →
      load_multi_year_data fetch years data_type = Except.error
        (PyError.valueError ("Unknown data type: " ++ data_type ++
          ". Must be one of ['team_stats', 'rankings', 'games', 'tournament']"))) ∧
    (∀ (model_type : String) (params : Option (List (String × Cell))),
      ¬ model_type ∈ ["baseline", "random_forest", "gradient_boosting", "svm"] →
      create_model model_type params = Except.error
        (PyError.valueError ("Unknown model type: " ++ model_type ++
          ". Must be one of ['baseline', 'random_forest', 'gradient_boosting', 'svm']"))) := by
  constructor
  · intro fetch years data_type h
    unfold load_multi_year_data
    rw [if_pos h]
  · intro model_type params h
    unfold create_model
    rw [if_neg (fun hh => h (by simp [hh])),
        if_neg (fun hh => h (by simp [hh])),
        if_neg (fun hh => h (by simp [hh])),
        if_neg (fun hh => h (by simp [hh]))]

/-- Example instance of C7: two unrecognized tags. -/
theorem unknown_tag_fails_fast_witness :
    (¬ "scores" ∈ dataTypes ∧
      load_multi_year_data fetch0 [2020] "scores" = Except.error
        (PyError.valueError ("Unknown data type: " ++ "scores" ++
          ". Must be one of ['team_stats', 'rankings', 'games', 'tournament']"))) ∧
    (¬ "neural_net" ∈ ["baseline", "random_forest", "gradient_boosting", "svm"] ∧
      create_model "neural_net" none = Except.error
        (PyError.valueError ("Unknown model type: " ++ "neural_net" ++
          ". Must be one of ['baseline', 'random_forest', 'gradient_boosting', 'svm']"))) :=
  ⟨⟨by decide, unknown_tag_fails_fast.1 fetch0 [2020] "scores" (by decide)⟩,
   ⟨by decide, unknown_tag_fails_fast.2 "neural_net" none (by decide)⟩⟩

/-- C8: when the combined matchup table carries an `outcome` column,
`prepare_training_data` returns `(X, y)` with `X` exactly the matchup
table less the `outcome` column (same rows, same values in every other
column) and `y` exactly the `outcome` column; when the column is absent
it fails deterministically with the pandas `KeyError`. -/
theorem prepare_training_data_split
    (team_stats rankings games : List (Int × Table)) (target_years : List Int)
    (tf mtab : Table)
    (htf : create_team_features
        (team_stats.filter (fun p => p.1 ∈ target_years))
        (some (rankings.filter (fun p => p.1 ∈ target_years))) 2 =
        Except.ok tf)
    (hmt : create_matchup_features tf
        (games.filter (fun p => p.1 ∈ target_years)) 2 = Except.ok mtab)
    (hnd : mtab.header.Nodup) :
    ((("outcome" : String) ∈ mtab.header) →
      ∃ X y, prepare_training_data team_stats rankings games target_years =
          Except.ok (X, y) ∧
        X.header = mtab.header.filter (fun c => ¬ c = "outcome") ∧
        ¬ ("outcome" : String) ∈ X.header ∧
        X.rows.length = mtab.rows.length ∧
        (∀ name, name ≠ "outcome" → colValues X name = colValues mtab name) ∧
        y = colValues mtab "outcome") ∧
    (¬ (("outcome" : String) ∈ mtab.header) →
      prepare_training_data team_stats rankings games target_years =
        Except.error (PyError.keyError "['outcome'] not found in axis")) := by
  have hchain : prepare_training_data team_stats rankings games target_years =
      (mtab.drop "outcome").bind
        (fun X => (mtab.getCol "outcome").bind (fun y => Except.ok (X, y))) := by
    unfold prepare_training_data
    simp only [Bind.bind, Except.bind, htf, hmt, Pure.pure, Except.pure]
  constructor
  · intro hout
    set X0 : Table :=
      ⟨dropColHeader mtab.header "outcome",
       mtab.rows.map (fun r => dropColRow mtab.header r "outcome")⟩ with hX0
    have hdrop : mtab.drop "outcome" = Except.ok X0 := by
      unfold Table.drop
      rw [if_pos hout]
    have hget : mtab.getCol "outcome" =
        Except.ok (colValues mtab "outcome") := by
      unfold Table.getCol colValues
      rw [if_pos hout]
    refine ⟨X0, colValues mtab "outcome", ?_, ?_, ?_, ?_, ?_, rfl⟩
    · rw [hchain, hdrop, hget]
      rfl
    · rw [hX0]
      exact dropColHeader_eq_filter _ _ hnd
    · rw [hX0]
      exact not_mem_dropColHeader _ _ hnd
    · rw [hX0]
      simp
    · intro name hne
      rw [hX0]
      unfold colValues
      simp only [List.map_map]
      apply List.map_congr_left
      intro r _
      exact rowVal_dropCol mtab.header r name "outcome" hne
  · intro hout
    have hdrop : mtab.drop "outcome" =
        Except.error (PyError.keyError "['outcome'] not found in axis") := by
      unfold Table.drop
      rw [if_neg hout]
      decide
    rw [hchain, hdrop]
    rfl

/-- Example instance of C8: a one-row matchup table with an `outcome`
column is split into features and target. -/
theorem prepare_training_data_split_witness :
    (create_team_features
        ([((2020:Int), Ta)].filter (fun p => p.1 ∈ [(2020:Int)]))
        (some (([] : List (Int × Table)).filter (fun p => p.1 ∈ [(2020:Int)]))) 2 =
        Except.ok Ts1 ∧
      create_matchup_features Ts1
        ([((2020:Int), Tg)].filter (fun p => p.1 ∈ [(2020:Int)])) 2 =
        Except.ok Tm ∧
      Tm.header.Nodup ∧ ("outcome" : String) ∈ Tm.header) ∧
    (∃ X y, prepare_training_data [((2020:Int), Ta)] [] [((2020:Int), Tg)]
          [(2020:Int)] = Except.ok (X, y) ∧
      X.header = Tm.header.filter (fun c => ¬ c = "outcome") ∧
      ¬ ("outcome" : String) ∈ X.header ∧
      X.rows.length = Tm.rows.length ∧
      (∀ name, name ≠ "outcome" → colValues X name = colValues Tm name) ∧
      y = colValues Tm "outcome") :=
  ⟨⟨by decide, by decide, by decide, by decide⟩,
   (prepare_training_data_split [((2020:Int), Ta)] [] [((2020:Int), Tg)]
      [(2020:Int)] Ts1 Tm (by decide) (by decide) (by decide)).1 (by decide)⟩

/-- C9: on every model the factory creates, `predict`, `evaluate` and
`save` fail with their precondition `RuntimeError` while the model is
untrained, and after `train` both `predict` and `evaluate` return
normally instead of that state error. -/
theorem model_state_machine_errors (model_type : String)
    (params : Option (List (String × Cell))) (m₀ : MLModel)
    (impl : Option (Table × List Cell) → Table → List Cell)
    (metrics : List Cell → List Cell → List (String × Rat))
    (X X₂ : Table) (y y₂ : List Cell)
    (h : create_model model_type params = Except.ok m₀) :
    m₀.predict impl X = Except.error
      (PyError.runtimeError "Model must be trained before making predictions") ∧
    m₀.evaluate impl metrics X y = Except.error
      (PyError.runtimeError "Model must be trained before evaluation") ∧
    m₀.save = Except.error
      (PyError.runtimeError "Cannot save untrained model") ∧
    (m₀.train X y).predict impl X₂ = Except.ok (impl (some (X, y)) X₂) ∧
    (m₀.train X y).evaluate impl metrics X₂ y₂ =
      Except.ok (metrics y₂ (impl (some (X, y)) X₂)) := by
  have huntrained := create_model_untrained model_type params m₀ h
  refine ⟨?_, ?_, ?_, ?_, ?_⟩
  · unfold MLModel.predict
    rw [if_pos huntrained]
  · unfold MLModel.evaluate
    rw [if_pos huntrained]
  · unfold MLModel.save
    rw [if_pos huntrained]
  · unfold MLModel.predict MLModel.train
    simp
  · unfold MLModel.evaluate MLModel.predict MLModel.train
    simp [Except.map]

/-- Example instance of C9: the baseline variant. -/
theorem model_state_machine_errors_witness :
    (create_model "baseline" none =
      Except.ok (⟨ModelType.baseline, [], false, none⟩ : MLModel)) ∧
    ((⟨ModelType.baseline, [], false, none⟩ : MLModel).predict
        impl0 Ta = Except.error
      (PyError.runtimeError "Model must be trained before making predictions") ∧
    (⟨ModelType.baseline, [], false, none⟩ : MLModel).evaluate
        impl0 metrics0 Ta [] = Except.error
      (PyError.runtimeError "Model must be trained before evaluation") ∧
    (⟨ModelType.baseline, [], false, none⟩ : MLModel).save = Except.error
      (PyError.runtimeError "Cannot save untrained model") ∧
    ((⟨ModelType.baseline, [], false, none⟩ : MLModel).train Ta []).predict
        impl0 Tb = Except.ok (impl0 (some (Ta, [])) Tb) ∧
    ((⟨ModelType.baseline, [], false, none⟩ : MLModel).train Ta []).evaluate
        impl0 metrics0 Tb [] =
      Except.ok (metrics0 [] (impl0 (some (Ta, [])) Tb))) :=
  ⟨by decide,
   model_state_machine_errors "baseline" none
     ⟨ModelType.baseline, [], false, none⟩ impl0 metrics0
     Ta Tb [] [] (by decide)⟩

/-- C10: restoring through a variant class's `load` fails with the
`TypeError` exactly when the stored model's variant differs from the
requesting variant, and returns the stored model unchanged when they
match. -/
theorem model_load_variant_check (cls : ModelType) (stored : MLModel) :
    ((∃ msg, MLModel.load cls stored = Except.error (PyError.typeError msg)) ↔
      ¬ stored.modelType = cls) ∧
    (stored.modelType = cls → MLModel.load cls stored = Except.ok stored) := by
  constructor
  · constructor
    · rintro ⟨msg, hmsg⟩ heq
      unfold MLModel.load at hmsg
      rw [if_pos heq] at hmsg
      cases hmsg
    · intro hne
      refine ⟨"Loaded model is not an instance of " ++ className cls, ?_⟩
      unfold MLModel.load
      rw [if_neg hne]
  · intro heq
    unfold MLModel.load
    rw [if_pos heq]

/-- Example instance of C10: a mismatching and a matching restore. -/
theorem model_load_variant_check_witness :
    (¬ (⟨ModelType.svm, [], false, none⟩ : MLModel).modelType = ModelType.baseline ∧
      (∃ msg, MLModel.load ModelType.baseline
        (⟨ModelType.svm, [], false, none⟩ : MLModel) =
          Except.error (PyError.typeError msg))) ∧
    MLModel.load ModelType.svm (⟨ModelType.svm, [], false, none⟩ : MLModel) =
      Except.ok (⟨ModelType.svm, [], false, none⟩ : MLModel) :=
  ⟨⟨by decide,
    (model_load_variant_check ModelType.baseline
      ⟨ModelType.svm, [], false, none⟩).1.mpr (by decide)⟩,
   (model_load_variant_check ModelType.svm
      ⟨ModelType.svm, [], false, none⟩).2 (by decide)⟩

end MarchMadness
